import Mathlib

/-!
Shallow embedding of `src/dev/xdl/src/Exp.js` (the Exp module of the
expo-cli repository).  Parsed JSON manifests are modelled as structures of
optional string fields; file reads that may throw are modelled as `Option`
values (`none` = the read threw); external collaborators (user settings,
the remote version registry, the downloader, the extraction tools) are
modelled as parameters; filesystem side effects are recorded in an explicit
trace of `Effect` values.
-/

namespace Exp

/-- JS truthiness of an optional string field: an absent field and the
empty string are falsy, every other string is truthy. -/
def truthy : Option String → Bool
  | none => false
  | some s => s ≠ ""

/-- JS `a || b` on two optional string fields. -/
def jsOr (a b : Option String) : Option String :=
  if truthy a then a else b

/-- JS `a || b` where the fallback `b` is a plain string literal. -/
def strOr (a : Option String) (b : String) : String :=
  match a with
  | some s => if s ≠ "" then s else b
  | none => b

/-- `path.join` of two segments. -/
def pathJoin (a b : String) : String := a ++ "/" ++ b

/-- The parsed tool-specific manifest (`exp.json`), or the embedded `exp`
section of `package.json`.  Fields consumed by Exp.js. -/
structure ExpCfg where
  name : Option String := none
  slug : Option String := none
  version : Option String := none
  sdkVersion : Option String := none
  entryPoint : Option String := none
  deriving Repr, DecidableEq

/-- The parsed generic manifest (`package.json`).  Fields consumed by
Exp.js. -/
structure Pkg where
  name : Option String := none
  version : Option String := none
  description : Option String := none
  author : Option String := none
  main : Option String := none
  exp : Option ExpCfg := none
  deriving Repr, DecidableEq

/-- The outcome of the two manifest reads at a project root:
`pkg = none` means `packageJsonForRoot(root).readAsync()` throws,
`exp = none` means `expJsonForRoot(root).readAsync()` throws. -/
structure FS where
  pkg : Option Pkg
  exp : Option ExpCfg
  deriving Repr, DecidableEq

/-- The shared `try` block of `expConfigForRootAsync` / `getPublishInfoAsync`:
`pkg` is read first, then `exp`; the surrounding `catch` swallows the first
failure, so a failing `package.json` read leaves `exp` unassigned even when
`exp.json` is readable. -/
def readManifests (fs : FS) : Option Pkg × Option ExpCfg :=
  match fs.pkg with
  | none => (none, none)
  | some p =>
    match fs.exp with
    | none => (some p, none)
    | some e => (some p, some e)

/-- `expConfigForRootAsync`: read both manifests (failures swallowed);
if `exp.json` gave nothing and `package.json` was read, fall back to its
embedded `exp` section. -/
def expConfigForRootAsync (fs : FS) : Option ExpCfg :=
  let r := readManifests fs
  let pkg := r.1
  let exp := r.2
  match exp with
  | some e => some e
  | none =>
    match pkg with
    | some p => p.exp
    | none => none

/-- `determineEntryPointAsync`: the generic manifest `main` field (default
`index.js`), overridden by the resolved config entryPoint when truthy.
`Except.error ()` models the throw when `package.json` is unreadable. -/
def determineEntryPointAsync (fs : FS) : Except Unit String :=
  match fs.pkg with
  | none => Except.error ()
  | some pkg =>
    let exp := expConfigForRootAsync fs
    let entryPoint := strOr pkg.main "index.js"
    let entryPoint :=
      match exp with
      | some e =>
        match e.entryPoint with
        | some ep => if ep ≠ "" then ep else entryPoint
        | none => entryPoint
      | none => entryPoint
    Except.ok entryPoint

/-- Projection used to state claims about the resolved config. -/
def cfgSdkVersion : Option ExpCfg → Option String
  | none => none
  | some e => e.sdkVersion

/-- Projection used to state claims about the resolved config. -/
def cfgVersion : Option ExpCfg → Option String
  | none => none
  | some e => e.version

/-- Projection used to state claims about the resolved config. -/
def cfgEntryPoint : Option ExpCfg → Option String
  | none => none
  | some e => e.entryPoint

/-- The distinct failures `getPublishInfoAsync` can throw, in the order the
source checks them. -/
inductive PublishError where
  | noUsername
  | sdkVersionMissing
  | nameMissing
  | versionMissing
  | entryPointUnavailable
  deriving Repr, DecidableEq

/-- The `args` part of the `PublishInfo` record built by
`getPublishInfoAsync`. -/
structure PublishArgs where
  username : String
  localPackageName : String
  packageVersion : String
  remoteUsername : String
  remotePackageName : String
  remoteFullPackageName : String
  ngrokUrl : String
  sdkVersion : String
  deriving Repr, DecidableEq

/-- The record returned by `getPublishInfoAsync`; `body` is the raw generic
manifest. -/
structure PublishInfo where
  args : PublishArgs
  body : Option Pkg
  deriving Repr, DecidableEq

/-- Lines 257-267 of Exp.js: derive `(exp, name, version)` from the two
manifest reads.  The first branch is the legacy `package.json`-with-`exp`
case (`name = pkg.name`, `version = pkg.version`, no fallback); the second
branch is the two-file case (`name = exp.slug`,
`version = pkg.version || exp.version`). -/
def publishResolve (exp0 : Option ExpCfg) (pkg0 : Option Pkg) :
    Option ExpCfg × Option String × Option String :=
  match exp0, pkg0 with
  | none, some p =>
    match p.exp with
    | some pe => (some pe, p.name, p.version)
    | none => (none, none, none)
  | some e, some p => (some e, e.slug, jsOr p.version e.version)
  | e, _ => (e, none, none)

/-- `getPublishInfoAsync`: the caller identity (`User.getUsernameAsync`) and
the publish url (`UrlUtils.constructPublishUrlAsync`) are external
collaborators passed as parameters.  Field checks use JS truthiness, in
source order: username, `exp.sdkVersion`, `name`, `version`. -/
def getPublishInfoAsync (username : String) (fs : FS) (ngrokUrl : String) :
    Except PublishError PublishInfo :=
  if username = "" then Except.error PublishError.noUsername
  else
    let r := readManifests fs
    let pkg0 := r.1
    let exp0 := r.2
    let rnv := publishResolve exp0 pkg0
    let exp1 := rnv.1
    let name := rnv.2.1
    let version := rnv.2.2
    match exp1 with
    | none => Except.error PublishError.sdkVersionMissing
    | some exp =>
      if truthy exp.sdkVersion then
        if truthy name then
          if truthy version then
            match determineEntryPointAsync fs with
            | Except.error _ => Except.error PublishError.entryPointUnavailable
            | Except.ok _ =>
              Except.ok
                { args :=
                    { username := username
                      localPackageName := name.getD ""
                      packageVersion := version.getD ""
                      remoteUsername := username
                      remotePackageName := name.getD ""
                      remoteFullPackageName :=
                        "@" ++ username ++ "/" ++ name.getD ""
                      ngrokUrl := ngrokUrl
                      sdkVersion := exp.sdkVersion.getD "" }
                  body := pkg0 }
          else Except.error PublishError.versionMissing
        else Except.error PublishError.nameMissing
      else Except.error PublishError.sdkVersionMissing

/-- Observable side effects of the scaffold path, recorded in order.
`remove` is representable but never emitted (there is no rollback in the
source). -/
inductive Effect where
  | mkdirp (dir : String)
  | notify (message : String)
  | downloadFile (url : String) (dest : String)
  | spawnTar (archive : String) (dir : String)
  | targzExtract (archive : String) (dir : String)
  | writeJson (file : String) (data : Pkg)
  | writeFile (file : String) (contents : String)
  | remove (dir : String)
  deriving Repr, DecidableEq

/-- Replace the first occurrence of `pat` in `s` (JS `String.replace` with
a non-global pattern).  `String.replace` itself models the global form. -/
def replaceFirst (s pat repl : String) : String :=
  match s.splitOn pat with
  | [] => s
  | [_] => s
  | p :: rest => p ++ repl ++ String.intercalate pat rest

/-- External collaborators of the scaffold path: the settings home
directory, the remote version registry, the `fs.statSync` oracle for the
target directory, the stored email, the outcomes of the two extraction
strategies, and the template file contents visible after extraction. -/
structure Env where
  homeDir : String
  starterAppVersion : String → String
  statExists : String → Bool
  email : Option String
  primaryExtract : Except String Unit
  fallbackExtract : Except String Unit
  pkgContents : Pkg
  mainJs : String
  expJsonText : String

/-- `_starterAppCacheDirectory`: joins the settings home directory with
`starter-app-cache` and eagerly creates it. -/
def _starterAppCacheDirectory (env : Env) : List Effect × String :=
  let dir := pathJoin env.homeDir "starter-app-cache"
  ([Effect.mkdirp dir], dir)

/-- `_downloadStarterAppAsync`: resolve the registry version, build the
deterministic cache path `<name>-<version>.tar.gz`;  if the cache (the set
of already-present archive paths) has it, return it, otherwise download
into the cache directory.  Returns (trace, new cache, archive path). -/
def _downloadStarterAppAsync (env : Env) (cache : List String) (name : String) :
    List Effect × List String × String :=
  let starterAppVersion := env.starterAppVersion name
  let filename := name ++ "-" ++ starterAppVersion ++ ".tar.gz"
  let r1 := _starterAppCacheDirectory env
  let starterAppPath := pathJoin r1.2 filename
  if cache.contains starterAppPath then
    (r1.1, cache, starterAppPath)
  else
    let url := "https://s3.amazonaws.com/exp-starter-apps/" ++ filename
    let r2 := _starterAppCacheDirectory env
    (r1.1 ++ r2.1 ++ [Effect.downloadFile url r2.2],
      starterAppPath :: cache, starterAppPath)

/-- `_extract`: try `tar -xvf` (external spawn); on any failure, swallow it
and run the library extraction (`targz`), whose outcome propagates. -/
def _extract (env : Env) (archive : String) (dir : String) :
    List Effect × Except String Unit :=
  match env.primaryExtract with
  | Except.ok _ => ([Effect.spawnTar archive dir], Except.ok ())
  | Except.error _ =>
    ([Effect.spawnTar archive dir, Effect.targzExtract archive dir],
      env.fallbackExtract)

/-- The `opts` argument of `createNewExpAsync`; joi validates that `name`
is a present, non-empty string. -/
structure Opts where
  name : Option String
  deriving Repr, DecidableEq

/-- Error codes thrown by `createNewExpAsync`. -/
inductive CreateError where
  | invalidOptions (message : String)
  | directoryExists (message : String)
  | extraction (e : String)
  deriving Repr, DecidableEq

/-- `createNewExpAsync`: validate opts, reserve the target directory
(fail before any effect when it exists), create it, fetch the template,
extract it with fallback, then customize `package.json`, `main.js` and
`exp.json`.  `extraPackageJsonFields` models the first `Object.assign`
merge as an update function on the parsed manifest. -/
def createNewExpAsync (env : Env) (cache : List String) (selectedDir : String)
    (extraPackageJsonFields : Pkg → Pkg) (opts : Opts) :
    List Effect × Except CreateError String :=
  match opts.name with
  | none => ([], Except.error (CreateError.invalidOptions "name is required"))
  | some name =>
    if name = "" then
      ([], Except.error (CreateError.invalidOptions "name is not allowed to be empty"))
    else
      let root := pathJoin selectedDir name
      let fileExists := env.statExists root
      if fileExists then
        ([], Except.error (CreateError.directoryExists
          ("That directory already exists. Please choose a different parent directory or project name. ("
            ++ root ++ ")")))
      else
        let rdl := _downloadStarterAppAsync env cache "default"
        let starterAppPath := rdl.2.2
        let rex := _extract env starterAppPath root
        let effPre :=
          Effect.mkdirp root :: Effect.notify "Downloading project files..." :: rdl.1
            ++ Effect.notify "Extracting project files..." :: rex.1
        match rex.2 with
        | Except.error e => (effPre, Except.error (CreateError.extraction e))
        | Except.ok _ =>
          let packageJson := extraPackageJsonFields env.pkgContents
          let data :=
            { packageJson with
                name := some name
                version := some "0.0.0"
                description := some "Hello Exponent!"
                author := env.email }
          let customMainJs := String.replace env.mainJs "__NAME__" name
          let customExpJson :=
            replaceFirst
              (replaceFirst env.expJsonText "\"My New Project\"" ("\"" ++ name ++ "\""))
              "\"my-new-project\"" ("\"" ++ name ++ "\"")
          (effPre
            ++ [Effect.notify "Customizing project...",
                Effect.writeJson (pathJoin root "package.json") data,
                Effect.writeFile (pathJoin root "main.js") customMainJs,
                Effect.writeFile (pathJoin root "exp.json") customExpJson],
            Except.ok root)

/-- Predicate picking out the network download effects of a trace. -/
def isDownload : Effect → Bool
  | Effect.downloadFile _ _ => true
  | _ => false

/-- Number of network downloads a trace performs. -/
def countDownloads (l : List Effect) : Nat :=
  (l.filter isDownload).length

/-- Two sequential `_downloadStarterAppAsync` calls for the same name,
threading the cache; returns (combined trace, first path, second path). -/
def downloadTwice (env : Env) (cache : List String) (name : String) :
    List Effect × String × String :=
  let r1 := _downloadStarterAppAsync env cache name
  let r2 := _downloadStarterAppAsync env r1.2.1 name
  (r1.1 ++ r2.1, r1.2.2, r2.2.2)

/-- `saveRecentExpRootAsync`: canonicalize (`path.resolve`, an external
collaborator passed as `resolve`), read the persisted list (`[]` when the
store is unreadable, i.e. `stored = none`), drop existing occurrences of
the path, unshift it, persist the first 100 entries.  Returns the persisted
list. -/
def saveRecentExpRootAsync (resolve : String → String) (stored : Option (List String))
    (root : String) : List String :=
  let root := resolve root
  let recentExps := stored.getD []
  let recentExps := recentExps.filter (fun x => x ≠ root)
  (root :: recentExps).take 100

/-- Iterate `saveRecentExpRootAsync` over a sequence of calls starting from
the default (absent) store, each call reading what the previous one
persisted. -/
def recordUses (resolve : String → String) (roots : List String) : List String :=
  roots.foldl (fun st r => saveRecentExpRootAsync resolve (some st) r) []

/-- `getProjectRandomnessAsync`: `stored` is `ps.urlRandomness` from the
project settings, `gen` the value `UrlUtils.someRandomness()` would
produce.  Returns (result, new stored value, whether the generator was
invoked). -/
def getProjectRandomnessAsync (stored : Option String) (gen : String) :
    String × Option String × Bool :=
  match stored with
  | some r => if r ≠ "" then (r, stored, false) else (gen, some gen, true)
  | none => (gen, some gen, true)

/-- `getLoggedOutPlaceholderUsernameAsync`: `stored` is the persisted
`loggedOutPlaceholderUsername` user setting, `gen` the value
`UrlUtils.randomIdentifierForLoggedOutUser()` would produce.  Returns
(result, new stored value, whether the generator was invoked). -/
def getLoggedOutPlaceholderUsernameAsync (stored : Option String) (gen : String) :
    String × Option String × Bool :=
  match stored with
  | some lpu => if lpu ≠ "" then (lpu, stored, false) else (gen, some gen, true)
  | none => (gen, some gen, true)

/-- Concrete distinct absolute paths used to exercise the recency list. -/
def paths105 : List String :=
  (List.range 105).map (fun n => "/p" ++ toString n)

/-- Concrete environment in which the target directory is absent and both
extraction strategies fail. -/
def envFail : Env :=
  { homeDir := "/home/u/.exponent"
    starterAppVersion := fun _ => "1.0.0"
    statExists := fun _ => false
    email := none
    primaryExtract := Except.error "spawn failed"
    fallbackExtract := Except.error "targz failed"
    pkgContents := {}
    mainJs := ""
    expJsonText := "" }

/-- Concrete environment in which the target directory already exists. -/
def envExists : Env :=
  { envFail with statExists := fun _ => true }

/-- Concrete generic manifest with an embedded legacy `exp` section. -/
def pkgW : Pkg :=
  { name := some "pkgname", version := some "3.0", main := some "m.js",
    exp := some { sdkVersion := some "9.9" } }

/-- Concrete standalone tool manifest. -/
def expW : ExpCfg :=
  { sdkVersion := some "1.0", slug := some "slug", version := some "2.0",
    entryPoint := some "ep.js" }

/-- The publish record produced for `pkgW`/`expW` with username `u`. -/
def infoW : PublishInfo :=
  { args :=
      { username := "u", localPackageName := "slug", packageVersion := "3.0",
        remoteUsername := "u", remotePackageName := "slug",
        remoteFullPackageName := "@u/slug", ngrokUrl := "ngrok",
        sdkVersion := "1.0" },
    body := some pkgW }

/-! ## Helper lemmas -/

theorem saveRecent_eq (resolve : String → String) (stored : Option (List String))
    (root : String) :
    saveRecentExpRootAsync resolve stored root =
      (resolve root :: (stored.getD []).filter (fun x => x ≠ resolve root)).take 100 := rfl

theorem head_take_cons {α : Type} (a : α) (l : List α) (n : Nat) (h : 0 < n) :
    ((a :: l).take n).head? = some a := by
  cases n with
  | zero => exact absurd h (by decide)
  | succ m => simp [List.take_succ_cons]

theorem saveRecent_nodup (resolve : String → String) (stored : Option (List String))
    (root : String) (h : (stored.getD []).Nodup) :
    (saveRecentExpRootAsync resolve stored root).Nodup := by
  rw [saveRecent_eq]
  refine List.Nodup.sublist (List.take_sublist _ _) ?_
  refine List.nodup_cons.mpr ⟨?_, h.filter _⟩
  intro hmem
  rcases List.mem_filter.mp hmem with ⟨-, hne⟩
  simp at hne

theorem recordUses_nodup_aux (resolve : String → String) (rs : List String) :
    ∀ st : List String, st.Nodup →
      (rs.foldl (fun st r => saveRecentExpRootAsync resolve (some st) r) st).Nodup := by
  induction rs with
  | nil => intro st h; exact h
  | cons r rs ih =>
    intro st h
    exact ih _ (saveRecent_nodup resolve (some st) r (by simpa using h))

theorem recordUses_eq (resolve : String → String) (roots : List String)
    (h : (roots.map resolve).Nodup) :
    recordUses resolve roots = ((roots.map resolve).reverse).take 100 := by
  induction roots using List.reverseRecOn with
  | nil => rfl
  | append_singleton rs r ih =>
    rw [List.map_append] at h
    have h1 : (rs.map resolve).Nodup := (List.nodup_append.mp h).1
    have hnotin : resolve r ∉ rs.map resolve := by
      intro hmem
      rcases List.nodup_append.mp h with ⟨-, -, hdisj⟩
      exact hdisj hmem (by simp)
    unfold recordUses at *
    rw [List.foldl_append, List.foldl_cons, List.foldl_nil, ih h1, saveRecent_eq]
    have hfilter :
        (((rs.map resolve).reverse.take 100).filter (fun x => x ≠ resolve r)) =
          (rs.map resolve).reverse.take 100 := by
      apply List.filter_eq_self.mpr
      intro a ha
      have hmem : a ∈ rs.map resolve :=
        List.mem_reverse.mp ((List.take_sublist _ _).subset ha)
      simp only [decide_eq_true_eq]
      intro hEq
      exact hnotin (hEq ▸ hmem)
    rw [Option.getD_some, hfilter, List.map_append, List.reverse_append]
    simp only [List.map_cons, List.map_nil, List.reverse_cons, List.reverse_nil,
      List.nil_append, List.singleton_append]
    rw [show (100 : Nat) = 99 + 1 from rfl, List.take_succ_cons, List.take_succ_cons,
      List.take_take]
    norm_num

theorem publishResolve_fst (fs : FS) :
    (publishResolve (readManifests fs).2 (readManifests fs).1).1 =
      expConfigForRootAsync fs := by
  rcases fs with ⟨pkg, exp⟩
  cases pkg with
  | none => rfl
  | some p =>
    cases exp with
    | some e => rfl
    | none =>
      cases hpe : p.exp <;>
        simp [readManifests, publishResolve, expConfigForRootAsync, hpe]

theorem strOr_of_falsy (a : Option String) (b : String) (h : truthy a = false) :
    strOr a b = b := by
  cases a with
  | none => rfl
  | some s =>
    have hs : s = "" := by simpa [truthy] using h
    simp [strOr, hs]

theorem determineEntryPoint_eq (p : Pkg) (eo : Option ExpCfg) :
    determineEntryPointAsync ⟨some p, eo⟩ =
      Except.ok
        (match cfgEntryPoint (expConfigForRootAsync ⟨some p, eo⟩) with
          | some ep => if ep ≠ "" then ep else strOr p.main "index.js"
          | none => strOr p.main "index.js") := by
  cases eo with
  | some e =>
    cases he : e.entryPoint <;>
      simp [determineEntryPointAsync, expConfigForRootAsync, readManifests,
        cfgEntryPoint, he]
  | none =>
    cases hpe : p.exp with
    | none =>
      simp [determineEntryPointAsync, expConfigForRootAsync, readManifests,
        cfgEntryPoint, hpe]
    | some e =>
      cases he : e.entryPoint <;>
        simp [determineEntryPointAsync, expConfigForRootAsync, readManifests,
          cfgEntryPoint, hpe, he]

/-! ## Claim theorems -/

/-- Claim C1: when both manifests are readable, `expConfigForRootAsync`
returns exactly the parsed `exp.json`, ignoring the embedded `exp` section
of `package.json`; when only `package.json` is readable, its embedded
section (if any) is returned. -/
theorem expConfig_standalone_wins (p : Pkg) (e : ExpCfg) :
    expConfigForRootAsync ⟨some p, some e⟩ = some e
      ∧ expConfigForRootAsync ⟨some p, none⟩ = p.exp :=
  ⟨rfl, rfl⟩

/-- Claim C10: when reading `package.json` fails, the shared try block
leaves the config absent even though `exp.json` is readable, both in
`expConfigForRootAsync` and in the inline resolution of
`getPublishInfoAsync` (which then fails its sdkVersion check). -/
theorem expConfig_absent_when_pkg_unreadable (e : ExpCfg) (u g : String) :
    expConfigForRootAsync ⟨none, some e⟩ = none
      ∧ (publishResolve (readManifests ⟨none, some e⟩).2
            (readManifests ⟨none, some e⟩).1).1 = none
      ∧ (u ≠ "" →
          getPublishInfoAsync u ⟨none, some e⟩ g =
            Except.error PublishError.sdkVersionMissing) := by
  refine ⟨rfl, rfl, fun hu => ?_⟩
  simp [getPublishInfoAsync, readManifests, publishResolve, hu]

/-- Witness for C10 at a concrete readable `exp.json`. -/
theorem expConfig_absent_when_pkg_unreadable_witness :
    expConfigForRootAsync ⟨none, some {}⟩ = none
      ∧ getPublishInfoAsync "u" ⟨none, some {}⟩ "g" =
          Except.error PublishError.sdkVersionMissing :=
  ⟨(expConfig_absent_when_pkg_unreadable {} "u" "g").1,
    (expConfig_absent_when_pkg_unreadable {} "u" "g").2.2 (by decide)⟩

/-- Claim C9: with a readable generic manifest, the entry point is
`index.js` when neither `main` nor a config `entryPoint` is set, `main`
when only `main` is set, and the config `entryPoint` whenever it is set,
overriding `main`. -/
theorem determineEntryPoint_spec (p : Pkg) (eo : Option ExpCfg) :
    (truthy p.main = false →
        truthy (cfgEntryPoint (expConfigForRootAsync ⟨some p, eo⟩)) = false →
        determineEntryPointAsync ⟨some p, eo⟩ = Except.ok "index.js")
      ∧ (∀ m : String, p.main = some m → m ≠ "" →
          truthy (cfgEntryPoint (expConfigForRootAsync ⟨some p, eo⟩)) = false →
          determineEntryPointAsync ⟨some p, eo⟩ = Except.ok m)
      ∧ (∀ ep : String,
          cfgEntryPoint (expConfigForRootAsync ⟨some p, eo⟩) = some ep → ep ≠ "" →
          determineEntryPointAsync ⟨some p, eo⟩ = Except.ok ep) := by
  refine ⟨fun hm hcfg => ?_, fun m hm hm0 hcfg => ?_, fun ep hcfg hep => ?_⟩
  · rw [determineEntryPoint_eq]
    cases hce : cfgEntryPoint (expConfigForRootAsync ⟨some p, eo⟩) with
    | none => rw [strOr_of_falsy p.main _ hm]
    | some ep =>
      have hep : ep = "" := by simpa [truthy, hce] using hcfg
      simp [hep, strOr_of_falsy p.main _ hm]
  · rw [determineEntryPoint_eq]
    cases hce : cfgEntryPoint (expConfigForRootAsync ⟨some p, eo⟩) with
    | none => simp [strOr, hm, hm0]
    | some ep =>
      have hep : ep = "" := by simpa [truthy, hce] using hcfg
      simp [hep, strOr, hm, hm0]
  · rw [determineEntryPoint_eq, hcfg]
    simp [hep]

/-- Witness for C9 at concrete manifests exercising all three branches. -/
theorem determineEntryPoint_spec_witness :
    determineEntryPointAsync ⟨some {}, none⟩ = Except.ok "index.js"
      ∧ determineEntryPointAsync ⟨some { main := some "m.js" }, none⟩ =
          Except.ok "m.js"
      ∧ determineEntryPointAsync
            ⟨some { main := some "m.js" }, some { entryPoint := some "ep.js" }⟩ =
          Except.ok "ep.js" :=
  ⟨(determineEntryPoint_spec {} none).1 rfl rfl,
    (determineEntryPoint_spec { main := some "m.js" } none).2.1 "m.js" rfl
      (by decide) rfl,
    (determineEntryPoint_spec { main := some "m.js" }
        (some { entryPoint := some "ep.js" })).2.2 "ep.js" rfl (by decide)⟩

theorem getPublishInfo_no_username (fs : FS) (g : String) :
    getPublishInfoAsync "" fs g = Except.error PublishError.noUsername := by
  simp [getPublishInfoAsync]

theorem getPublishInfo_error_chain (u : String) (fs : FS) (g : String) (hu : u ≠ "") :
    (truthy (cfgSdkVersion (expConfigForRootAsync fs)) = false →
        getPublishInfoAsync u fs g = Except.error PublishError.sdkVersionMissing)
      ∧ (truthy (cfgSdkVersion (expConfigForRootAsync fs)) = true →
          truthy (publishResolve (readManifests fs).2 (readManifests fs).1).2.1 = false →
          getPublishInfoAsync u fs g = Except.error PublishError.nameMissing)
      ∧ (truthy (cfgSdkVersion (expConfigForRootAsync fs)) = true →
          truthy (publishResolve (readManifests fs).2 (readManifests fs).1).2.1 = true →
          truthy (publishResolve (readManifests fs).2 (readManifests fs).1).2.2 = false →
          getPublishInfoAsync u fs g = Except.error PublishError.versionMissing) := by
  have hb := publishResolve_fst fs
  rcases hr : publishResolve (readManifests fs).2 (readManifests fs).1 with
    ⟨exp1, name, version⟩
  rw [hr] at hb
  refine ⟨fun hsdk => ?_, fun hsdk hname => ?_, fun hsdk hname hver => ?_⟩
  · rw [← hb] at hsdk
    cases exp1 with
    | none => simp [getPublishInfoAsync, hu, hr]
    | some e =>
      have : truthy e.sdkVersion = false := by simpa [cfgSdkVersion] using hsdk
      simp [getPublishInfoAsync, hu, hr, this]
  · rw [← hb] at hsdk
    cases exp1 with
    | none => simp [cfgSdkVersion, truthy] at hsdk
    | some e =>
      have h1 : truthy e.sdkVersion = true := by simpa [cfgSdkVersion] using hsdk
      simp [getPublishInfoAsync, hu, hr, h1, hname]
  · rw [← hb] at hsdk
    cases exp1 with
    | none => simp [cfgSdkVersion, truthy] at hsdk
    | some e =>
      have h1 : truthy e.sdkVersion = true := by simpa [cfgSdkVersion] using hsdk
      simp [getPublishInfoAsync, hu, hr, h1, hname, hver]

/-- Claim C2: a failing `getPublishInfoAsync` names the first missing field
in the fixed order sdkVersion, name, version; in particular any resolved
config lacking a truthy `sdkVersion` fails naming sdkVersion, whatever
name and version would have been. -/
theorem getPublishInfo_first_missing (u : String) (fs : FS) (g : String) :
    (u ≠ "" → truthy (cfgSdkVersion (expConfigForRootAsync fs)) = false →
        getPublishInfoAsync u fs g = Except.error PublishError.sdkVersionMissing)
      ∧ (getPublishInfoAsync u fs g = Except.error PublishError.nameMissing →
          truthy (cfgSdkVersion (expConfigForRootAsync fs)) = true)
      ∧ (getPublishInfoAsync u fs g = Except.error PublishError.versionMissing →
          truthy (cfgSdkVersion (expConfigForRootAsync fs)) = true
            ∧ truthy (publishResolve (readManifests fs).2
                (readManifests fs).1).2.1 = true) := by
  refine ⟨fun hu => (getPublishInfo_error_chain u fs g hu).1, fun herr => ?_, fun herr => ?_⟩
  · by_cases hu : u = ""
    · rw [hu, getPublishInfo_no_username] at herr
      simp at herr
    · cases hsdk : truthy (cfgSdkVersion (expConfigForRootAsync fs)) with
      | true => rfl
      | false =>
        rw [(getPublishInfo_error_chain u fs g hu).1 hsdk] at herr
        simp at herr
  · by_cases hu : u = ""
    · rw [hu, getPublishInfo_no_username] at herr
      simp at herr
    · cases hsdk : truthy (cfgSdkVersion (expConfigForRootAsync fs)) with
      | false =>
        rw [(getPublishInfo_error_chain u fs g hu).1 hsdk] at herr
        simp at herr
      | true =>
        cases hname : truthy (publishResolve (readManifests fs).2
            (readManifests fs).1).2.1 with
        | false =>
          rw [(getPublishInfo_error_chain u fs g hu).2.1 hsdk hname] at herr
          simp at herr
        | true => exact ⟨rfl, rfl⟩

/-- Witness for C2: sdkVersion missing wins over derivable name and
version; name error implies sdkVersion was present; version error implies
sdkVersion and name were present. -/
theorem getPublishInfo_first_missing_witness :
    getPublishInfoAsync "u"
        ⟨some { name := some "n", version := some "1" },
          some { slug := some "s", version := some "2" }⟩ "g" =
      Except.error PublishError.sdkVersionMissing
      ∧ truthy (cfgSdkVersion (expConfigForRootAsync
          ⟨some {}, some { sdkVersion := some "7" }⟩)) = true
      ∧ (truthy (cfgSdkVersion (expConfigForRootAsync
            ⟨some {}, some { sdkVersion := some "7", slug := some "s" }⟩)) = true
          ∧ truthy (publishResolve
              (readManifests ⟨some {}, some { sdkVersion := some "7", slug := some "s" }⟩).2
              (readManifests ⟨some {}, some { sdkVersion := some "7", slug := some "s" }⟩).1).2.1
            = true) :=
  ⟨(getPublishInfo_first_missing "u"
      ⟨some { name := some "n", version := some "1" },
        some { slug := some "s", version := some "2" }⟩ "g").1 (by decide) rfl,
    (getPublishInfo_first_missing "u"
      ⟨some {}, some { sdkVersion := some "7" }⟩ "g").2.1 rfl,
    (getPublishInfo_first_missing "u"
      ⟨some {}, some { sdkVersion := some "7", slug := some "s" }⟩ "g").2.2 rfl⟩

/-- Claim C8: every successful publish descriptor takes its version from
the generic manifest, falling back to the resolved config version exactly
when the generic manifest version is falsy (in the legacy embedded case
success forces the generic manifest version to be present, so the same
formula holds there). -/
theorem getPublishInfo_version_fallback (u g : String) (fs : FS) (info : PublishInfo) :
    getPublishInfoAsync u fs g = Except.ok info →
    ∃ p, fs.pkg = some p ∧
      info.args.packageVersion =
        (jsOr p.version (cfgVersion (expConfigForRootAsync fs))).getD "" := by
  intro h
  by_cases hu : u = ""
  · rw [hu, getPublishInfo_no_username] at h
    simp at h
  · rcases fs with ⟨pkgo, expo⟩
    cases pkgo with
    | none =>
      simp [getPublishInfoAsync, readManifests, publishResolve, hu] at h
    | some p =>
      refine ⟨p, rfl, ?_⟩
      simp only [getPublishInfoAsync] at h
      rw [if_neg hu] at h
      cases expo with
      | none =>
        cases hpe : p.exp with
        | none =>
          simp [readManifests, publishResolve, hpe] at h
        | some pe =>
          simp only [readManifests, publishResolve, hpe] at h
          split at h
          · split at h
            · split at h
              · split at h
                · simp at h
                · injection h with h
                  subst h
                  rename_i hver x a heq
                  simp [expConfigForRootAsync, readManifests, cfgVersion, hpe,
                    jsOr, hver]
              · simp at h
            · simp at h
          · simp at h
      | some e =>
        simp only [readManifests, publishResolve] at h
        split at h
        · split at h
          · split at h
            · split at h
              · simp at h
              · injection h with h
                subst h
                simp [expConfigForRootAsync, readManifests, cfgVersion]
            · simp at h
          · simp at h
        · simp at h

/-- Witness for C8 at the concrete two-manifest project. -/
theorem getPublishInfo_version_fallback_witness :
    ∃ p, (FS.mk (some pkgW) (some expW)).pkg = some p ∧
      infoW.args.packageVersion =
        (jsOr p.version (cfgVersion (expConfigForRootAsync ⟨some pkgW, some expW⟩))).getD "" :=
  getPublishInfo_version_fallback "u" "ngrok" ⟨some pkgW, some expW⟩ infoW rfl

/-- Claim C3: when the target directory already exists, `createNewExpAsync`
fails with the directory-exists error carrying the target path and its
effect trace is empty: nothing is created, downloaded, extracted or
written on this path. -/
theorem createNewExp_directory_exists (env : Env) (cache : List String)
    (selectedDir name : String) (extra : Pkg → Pkg) (hname : name ≠ "")
    (hex : env.statExists (pathJoin selectedDir name) = true) :
    createNewExpAsync env cache selectedDir extra ⟨some name⟩ =
      ([], Except.error (CreateError.directoryExists
        ("That directory already exists. Please choose a different parent directory or project name. ("
          ++ pathJoin selectedDir name ++ ")"))) := by
  simp [createNewExpAsync, hname, hex]

/-- Witness for C3 at a concrete existing target. -/
theorem createNewExp_directory_exists_witness :
    createNewExpAsync envExists [] "/parent" id ⟨some "foo"⟩ =
      ([], Except.error (CreateError.directoryExists
        ("That directory already exists. Please choose a different parent directory or project name. ("
          ++ pathJoin "/parent" "foo" ++ ")"))) :=
  createNewExp_directory_exists envExists [] "/parent" "foo" id (by decide) rfl

/-- Claim C4: when the deterministic cache file exists,
`_downloadStarterAppAsync` returns its path with no download effect; from a
cache not holding it, two sequential calls with an unchanged registry
perform exactly one download and return the same path. -/
theorem downloadStarterApp_at_most_once (env : Env) (cache : List String)
    (name : String) :
    (cache.contains (pathJoin (pathJoin env.homeDir "starter-app-cache")
          (name ++ "-" ++ env.starterAppVersion name ++ ".tar.gz")) = true →
        (_downloadStarterAppAsync env cache name).2.2 =
            pathJoin (pathJoin env.homeDir "starter-app-cache")
              (name ++ "-" ++ env.starterAppVersion name ++ ".tar.gz")
          ∧ countDownloads (_downloadStarterAppAsync env cache name).1 = 0)
      ∧ (cache.contains (pathJoin (pathJoin env.homeDir "starter-app-cache")
            (name ++ "-" ++ env.starterAppVersion name ++ ".tar.gz")) = false →
          countDownloads (downloadTwice env cache name).1 = 1
            ∧ (downloadTwice env cache name).2.1 = (downloadTwice env cache name).2.2) := by
  constructor
  · intro h
    have hmem : pathJoin (pathJoin env.homeDir "starter-app-cache")
        (name ++ "-" ++ env.starterAppVersion name ++ ".tar.gz") ∈ cache := by
      simpa using h
    simp [_downloadStarterAppAsync, _starterAppCacheDirectory, countDownloads,
      isDownload, hmem]
  · intro h
    have hmem : pathJoin (pathJoin env.homeDir "starter-app-cache")
        (name ++ "-" ++ env.starterAppVersion name ++ ".tar.gz") ∉ cache := by
      simpa using h
    simp [downloadTwice, _downloadStarterAppAsync, _starterAppCacheDirectory,
      countDownloads, isDownload, hmem, List.filter_append]

/-- Witness for C4: a warm cache performs no download, a cold cache exactly
one across two calls. -/
theorem downloadStarterApp_at_most_once_witness :
    ((_downloadStarterAppAsync envFail
          [pathJoin (pathJoin envFail.homeDir "starter-app-cache")
            ("default" ++ "-" ++ envFail.starterAppVersion "default" ++ ".tar.gz")]
          "default").2.2 =
        pathJoin (pathJoin envFail.homeDir "starter-app-cache")
          ("default" ++ "-" ++ envFail.starterAppVersion "default" ++ ".tar.gz")
      ∧ countDownloads (_downloadStarterAppAsync envFail
          [pathJoin (pathJoin envFail.homeDir "starter-app-cache")
            ("default" ++ "-" ++ envFail.starterAppVersion "default" ++ ".tar.gz")]
          "default").1 = 0)
      ∧ (countDownloads (downloadTwice envFail [] "default").1 = 1
          ∧ (downloadTwice envFail [] "default").2.1 =
              (downloadTwice envFail [] "default").2.2) :=
  ⟨(downloadStarterApp_at_most_once envFail
      [pathJoin (pathJoin envFail.homeDir "starter-app-cache")
        ("default" ++ "-" ++ envFail.starterAppVersion "default" ++ ".tar.gz")]
      "default").1 (by decide),
    (downloadStarterApp_at_most_once envFail [] "default").2 (by decide)⟩

/-- Claim C7: extraction attempts the external tar first; any primary
failure is swallowed and the library fallback attempted; the call fails
exactly when the fallback fails, propagating the fallback error unchanged;
the trace holds nothing but the two extraction attempts, in particular no
cleanup of the target directory. -/
theorem extract_fallback (env : Env) (archive dir : String) :
    ((_extract env archive dir).1.head? = some (Effect.spawnTar archive dir))
      ∧ (∀ ep : String, env.primaryExtract = Except.error ep →
          (_extract env archive dir).1 =
              [Effect.spawnTar archive dir, Effect.targzExtract archive dir]
            ∧ (_extract env archive dir).2 = env.fallbackExtract)
      ∧ (∀ e : String, (_extract env archive dir).2 = Except.error e →
          (∃ ep, env.primaryExtract = Except.error ep)
            ∧ env.fallbackExtract = Except.error e)
      ∧ (∀ eff, eff ∈ (_extract env archive dir).1 →
          eff = Effect.spawnTar archive dir ∨ eff = Effect.targzExtract archive dir) := by
  cases hp : env.primaryExtract with
  | ok v =>
    refine ⟨by simp [_extract, hp], fun ep hep => ?_, fun e he => ?_, fun eff hm => ?_⟩
    · exact absurd hep (by simp [hp])
    · simp [_extract, hp] at he
    · simp [_extract, hp] at hm
      exact Or.inl hm
  | error ep0 =>
    refine ⟨by simp [_extract, hp], fun ep hep => ?_, fun e he => ?_, fun eff hm => ?_⟩
    · exact ⟨by simp [_extract, hp], by simp [_extract, hp]⟩
    · simp [_extract, hp] at he
      exact ⟨⟨ep0, rfl⟩, he⟩
    · simp [_extract, hp] at hm
      exact hm

/-- Witness for C7 with both strategies failing. -/
theorem extract_fallback_witness :
    ((_extract envFail "a.tgz" "dest").1.head? =
        some (Effect.spawnTar "a.tgz" "dest"))
      ∧ ((_extract envFail "a.tgz" "dest").1 =
            [Effect.spawnTar "a.tgz" "dest", Effect.targzExtract "a.tgz" "dest"]
          ∧ (_extract envFail "a.tgz" "dest").2 = envFail.fallbackExtract)
      ∧ ((∃ ep, envFail.primaryExtract = Except.error ep)
          ∧ envFail.fallbackExtract = Except.error "targz failed")
      ∧ (Effect.spawnTar "a.tgz" "dest" = Effect.spawnTar "a.tgz" "dest"
          ∨ Effect.spawnTar "a.tgz" "dest" = Effect.targzExtract "a.tgz" "dest") :=
  ⟨(extract_fallback envFail "a.tgz" "dest").1,
    (extract_fallback envFail "a.tgz" "dest").2.1 "spawn failed" rfl,
    (extract_fallback envFail "a.tgz" "dest").2.2.1 "targz failed" rfl,
    (extract_fallback envFail "a.tgz" "dest").2.2.2 _ (by decide)⟩

/-- Claim C5: each call persists at most 100 entries with the canonicalized
argument at index 0, duplicate freedom is preserved and holds for every
store reachable by calls from the default store, and a run of calls on
distinct canonical paths persists exactly the last 100 of them,
most-recent-first (so 105 distinct paths leave exactly 100 entries). -/
theorem recordUse_invariants :
    (∀ (resolve : String → String) (stored : Option (List String)) (root : String),
        (saveRecentExpRootAsync resolve stored root).length ≤ 100
          ∧ (saveRecentExpRootAsync resolve stored root).head? = some (resolve root)
          ∧ ((stored.getD []).Nodup → (saveRecentExpRootAsync resolve stored root).Nodup))
      ∧ (∀ (resolve : String → String) (roots : List String),
          (recordUses resolve roots).Nodup)
      ∧ (∀ (resolve : String → String) (roots : List String),
          (roots.map resolve).Nodup →
          recordUses resolve roots = ((roots.map resolve).reverse).take 100
            ∧ (roots.length = 105 → (recordUses resolve roots).length = 100)) := by
  refine ⟨fun resolve stored root => ⟨?_, ?_, fun h => saveRecent_nodup resolve stored root h⟩,
      fun resolve roots => recordUses_nodup_aux resolve roots [] List.nodup_nil,
      fun resolve roots h => ⟨recordUses_eq resolve roots h, fun hlen => ?_⟩⟩
  · rw [saveRecent_eq]
    exact List.length_take_le 100 _
  · rw [saveRecent_eq]
    exact head_take_cons _ _ 100 (by decide)
  · rw [recordUses_eq resolve roots h]
    simp [List.length_take, hlen]

/-- Witness for C5: a small dirty-free store plus the 105 distinct concrete
paths. -/
theorem recordUse_invariants_witness :
    ((saveRecentExpRootAsync id (some ["/b"]) "/a").length ≤ 100
        ∧ (saveRecentExpRootAsync id (some ["/b"]) "/a").head? = some (id "/a")
        ∧ (saveRecentExpRootAsync id (some ["/b"]) "/a").Nodup)
      ∧ (recordUses id ["/a", "/b", "/a"]).Nodup
      ∧ (recordUses id paths105 = ((paths105.map id).reverse).take 100
          ∧ (recordUses id paths105).length = 100) :=
  ⟨⟨(recordUse_invariants.1 id (some ["/b"]) "/a").1,
      (recordUse_invariants.1 id (some ["/b"]) "/a").2.1,
      (recordUse_invariants.1 id (some ["/b"]) "/a").2.2 (by decide)⟩,
    recordUse_invariants.2.1 id ["/a", "/b", "/a"],
    ⟨(recordUse_invariants.2.2 id paths105 (by decide)).1,
      (recordUse_invariants.2.2 id paths105 (by decide)).2 (by decide)⟩⟩

/-- Claim C6 counterexample: the presence check is JS truthiness, so a
generator returning the empty string is re-invoked by the next call (and a
persisted empty value never short-circuits): two sequential calls from the
absent state with generator outputs `""` then `"x"` invoke the generator
twice and return different values. -/
theorem getOrCreate_truthiness_counterexample :
    (getProjectRandomnessAsync none "").2.2 = true
      ∧ (getProjectRandomnessAsync ((getProjectRandomnessAsync none "").2.1) "x").2.2 = true
      ∧ (getProjectRandomnessAsync ((getProjectRandomnessAsync none "").2.1) "x").1
          ≠ (getProjectRandomnessAsync none "").1
      ∧ (getLoggedOutPlaceholderUsernameAsync (some "") "x").2.2 = true := by
  decide

/-- Claim C6 (amended): provided the persisted/generated value is
non-empty, a stored value is returned unchanged without invoking the
generator, and two sequential calls from the absent state invoke the
generator exactly once and return the same value both times — for both
`getProjectRandomnessAsync` and `getLoggedOutPlaceholderUsernameAsync`. -/
theorem getOrCreate_idempotent (stored : Option String) (g1 g2 : String) :
    (∀ v, stored = some v → v ≠ "" →
        getProjectRandomnessAsync stored g1 = (v, stored, false)
          ∧ getLoggedOutPlaceholderUsernameAsync stored g1 = (v, stored, false))
      ∧ (truthy stored = false → g1 ≠ "" →
          ((getProjectRandomnessAsync stored g1).2.2 = true
            ∧ (getProjectRandomnessAsync
                ((getProjectRandomnessAsync stored g1).2.1) g2).2.2 = false
            ∧ (getProjectRandomnessAsync
                ((getProjectRandomnessAsync stored g1).2.1) g2).1
                = (getProjectRandomnessAsync stored g1).1)
          ∧ ((getLoggedOutPlaceholderUsernameAsync stored g1).2.2 = true
            ∧ (getLoggedOutPlaceholderUsernameAsync
                ((getLoggedOutPlaceholderUsernameAsync stored g1).2.1) g2).2.2 = false
            ∧ (getLoggedOutPlaceholderUsernameAsync
                ((getLoggedOutPlaceholderUsernameAsync stored g1).2.1) g2).1
                = (getLoggedOutPlaceholderUsernameAsync stored g1).1)) := by
  constructor
  · intro v hv hv0
    subst hv
    simp [getProjectRandomnessAsync, getLoggedOutPlaceholderUsernameAsync, hv0]
  · intro hst hg1
    cases stored with
    | none =>
      simp [getProjectRandomnessAsync, getLoggedOutPlaceholderUsernameAsync, hg1]
    | some s =>
      have hs : s = "" := by simpa [truthy] using hst
      subst hs
      simp [getProjectRandomnessAsync, getLoggedOutPlaceholderUsernameAsync, hg1]

/-- Witness for C6 (amended) at concrete stored values and generators. -/
theorem getOrCreate_idempotent_witness :
    (getProjectRandomnessAsync (some "v") "g" = ("v", some "v", false)
        ∧ getLoggedOutPlaceholderUsernameAsync (some "v") "g" = ("v", some "v", false))
      ∧ (((getProjectRandomnessAsync none "r").2.2 = true
          ∧ (getProjectRandomnessAsync ((getProjectRandomnessAsync none "r").2.1) "x").2.2 = false
          ∧ (getProjectRandomnessAsync ((getProjectRandomnessAsync none "r").2.1) "x").1
              = (getProjectRandomnessAsync none "r").1)
        ∧ ((getLoggedOutPlaceholderUsernameAsync none "r").2.2 = true
          ∧ (getLoggedOutPlaceholderUsernameAsync
              ((getLoggedOutPlaceholderUsernameAsync none "r").2.1) "x").2.2 = false
          ∧ (getLoggedOutPlaceholderUsernameAsync
              ((getLoggedOutPlaceholderUsernameAsync none "r").2.1) "x").1
              = (getLoggedOutPlaceholderUsernameAsync none "r").1)) :=
  ⟨(getOrCreate_idempotent (some "v") "g" "x").1 "v" rfl (by decide),
    (getOrCreate_idempotent none "r" "x").2 (by decide) (by decide)⟩

end Exp
